import Mathlib

/-!
Verification of the run-storage layer of `src/run.rs`.

The Rust module persists a `Run` (a `RunConfig` plus per-block execution
traces) under a `.runs` directory, and offers load / list / inspect
queries.  The filesystem is modelled as an explicit state value (`FS`)
listing the immediate entries of `.runs`; every operation of the source
becomes a pure function over that state.  `serde_json` values are
modelled by the inductive `Json` (numbers restricted to integers), and
serialization of `RunConfig` follows the serde derive field-by-field.
Rust `assert!` panics are modelled as a distinguished `assertFailed`
error outcome; `anyhow` error returns use the other error constructors.
-/

namespace Dust

/-- Shallow model of `serde_json::Value`: JSON values with numbers
restricted to integers (float-valued numbers play no role in any claim). -/
inductive Json where
  | null
  | bool (b : Bool)
  | num (n : Int)
  | str (s : String)
  | arr (elems : List Json)
  | obj (fields : List (String × Json))


/-- Modelled from the spec: the external `BlockType` enum
(`crate::blocks::block::BlockType`) is used by `run.rs` only through its
`to_string()` rendering, so it is carried as that rendered string. -/
structure BlockType where
  render : String


/-- Modelled from the spec: the external `BlockExecution` (`crate::app`)
holds at most one of a success value (`output`) and a failure message
(`error`); both absent encodes a conditionally skipped block. -/
structure BlockExecution where
  output : Option Json
  error : Option String


/-- Modelled from the spec: serde serialization of the external
`BlockExecution` as a JSON object with its two optional fields. -/
def encodeBlockExecution (e : BlockExecution) : Json :=
  .obj [("output", match e.output with | some v => v | none => .null),
        ("error", match e.error with | some m => .str m | none => .null)]

/-- `RunConfig` from `src/run.rs`: `start_time: u64`, `app_hash: String`,
`blocks: HashMap<String, Value>`.  The hash map is carried as its entry
list in iteration order. -/
structure RunConfig where
  start_time : Nat
  app_hash : String
  blocks : List (String × Json)


/-- `RunConfig::config_for_block`: pure lookup in `blocks`. -/
def RunConfig.config_for_block (c : RunConfig) (name : String) : Option Json :=
  (c.blocks.find? (fun p => p.1 == name)).map Prod.snd

/-- serde `Serialize` for `RunConfig` (derive): an object with the three
fields in declaration order; a `u64` serializes as a nonnegative integer. -/
def encodeRunConfig (c : RunConfig) : Json :=
  .obj [("start_time", .num (.ofNat c.start_time)),
        ("app_hash", .str c.app_hash),
        ("blocks", .obj c.blocks)]

/-- Field lookup in a JSON object, as serde's deserializer performs it. -/
def jField (fields : List (String × Json)) (k : String) : Option Json :=
  (fields.find? (fun p => p.1 == k)).map Prod.snd

/-- serde `Deserialize` for `RunConfig` (derive): requires an object
carrying a nonnegative integer `start_time`, a string `app_hash` and an
object `blocks`; anything else is a deserialization failure. -/
def decodeRunConfig : Json → Option RunConfig
  | .obj fields =>
    match jField fields "start_time", jField fields "app_hash", jField fields "blocks" with
    | some (.num (.ofNat st)), some (.str ah), some (.obj bl) =>
      some { start_time := st, app_hash := ah, blocks := bl }
    | _, _, _ => none
  | _ => none

/-- Error outcomes of the storage layer.  `assertFailed` models a Rust
`assert!` panic (a hard abort, not an `anyhow` error return);
`alreadyExists` is the AlreadyExists error kind named by the spec, which
the source never constructs (its duplicate-store check is an `assert!`). -/
inductive RunError where
  | notFound (run_id : String)
  | ioError (msg : String)
  | malformedConfig
  | assertFailed (msg : String)
  | alreadyExists


/-- On-disk contents of one `.runs/<run_id>` directory: the `config.json`
payload and the block subdirectories, each the list of its per-input
`<input_index>.json` payloads in index order. -/
structure RunDir where
  configJson : Json
  blockDirs : List (String × List Json)


/-- One immediate entry of the `.runs` directory: a run directory or a
stray non-directory entry. -/
inductive RunsEntry where
  | dir (name : String) (contents : RunDir)
  | file (name : String)


def RunsEntry.name : RunsEntry → String
  | .dir n _ => n
  | .file n => n

def RunsEntry.isDir : RunsEntry → Bool
  | .dir _ _ => true
  | .file _ => false

/-- The filesystem state seen by `run.rs`: whether `utils::init_check`
succeeds, whether the `.runs` directory exists, and the entries
immediately under `.runs`. -/
structure FS where
  initOk : Bool
  runsDirExists : Bool
  entries : List RunsEntry


/-- Path lookup of `.runs/<run_id>`: the first entry with that name. -/
def lookupEntry (fs : FS) (run_id : String) : Option RunsEntry :=
  fs.entries.find? (fun e => e.name == run_id)

/-- `RunConfig::load`: `init_check`, `assert!(runs_dir.is_dir())`, the
existence check producing the "Run `id` does not exist" error, then read
and deserialize `config.json` (reading under a non-directory entry is an
I/O failure; a payload `serde_json` rejects is a malformed-config error). -/
def RunConfig.load (run_id : String) (fs : FS) : Except RunError RunConfig :=
  if !fs.initOk then .error (.ioError "init_check failed")
  else if !fs.runsDirExists then .error (.assertFailed "runs_dir.is_dir()")
  else
    match lookupEntry fs run_id with
    | none => .error (.notFound run_id)
    | some (.file _) => .error (.ioError "config.json: not a directory")
    | some (.dir _ d) =>
      match decodeRunConfig d.configJson with
      | some c => .ok c
      | none => .error .malformedConfig

/-- `Run` from `src/run.rs`: identifier, owned config, and the ordered
traces (`(block_type, name)` with per-input, per-branch executions). -/
structure Run where
  run_id : String
  config : RunConfig
  traces : List ((BlockType × String) × List (List BlockExecution))


/-- The block subdirectory name `format!("{}-{}_{}", block_idx,
block_type.to_string(), name)` used by `Run::store`. -/
def blockDirName (block_idx : Nat) (block_type : BlockType) (name : String) : String :=
  Nat.repr block_idx ++ "-" ++ block_type.render ++ "_" ++ name

/-- The per-input files written inside one block subdirectory: for each
input row, the serialized array of its branch executions. -/
def inputFiles (block_execution : List (List BlockExecution)) : List Json :=
  block_execution.map (fun executions => .arr (executions.map encodeBlockExecution))

/-- The run directory `Run::store` writes: `config.json` plus one block
subdirectory per trace entry, named from the enumerated index. -/
def storedRunDir (r : Run) : RunDir :=
  { configJson := encodeRunConfig r.config
    blockDirs := r.traces.enum.map (fun p =>
      (blockDirName p.1 p.2.1.1 p.2.1.2, inputFiles p.2.2)) }

/-- `Run::store`: `init_check`, `assert!(runs_dir.is_dir())`,
`assert!(!run_dir.exists())`, then create the run directory and write
`config.json` and every block subdirectory.  The pair carries the
filesystem after the call together with the call's outcome. -/
def Run.store (r : Run) (fs : FS) : FS × Except RunError Unit :=
  if !fs.initOk then (fs, .error (.ioError "init_check failed"))
  else if !fs.runsDirExists then (fs, .error (.assertFailed "runs_dir.is_dir()"))
  else if (lookupEntry fs r.run_id).isSome then
    (fs, .error (.assertFailed "!run_dir.exists()"))
  else
    ({ fs with entries := fs.entries ++ [.dir r.run_id (storedRunDir r)] }, .ok ())

/-- `Run::load`: load the config and return a `Run` with the caller's
`run_id` and empty `traces`. -/
def Run.load (run_id : String) (fs : FS) : Except RunError Run :=
  match RunConfig.load run_id fs with
  | .error e => .error e
  | .ok config => .ok { run_id := run_id, config := config, traces := [] }

/-- `cmd_inspect`: loads the `Run` and returns `Ok(())`, its `block`
argument unused (the read-back of the block subdirectory is absent from
the source). -/
def cmd_inspect (run_id : String) (block : String) (fs : FS) : Except RunError Unit :=
  match Run.load run_id fs with
  | .error _e => .error _e
  | .ok _run => .ok ()

/-- The loop body of `cmd_list`: traverse the entries of `.runs` in
order, skip non-directories, load every directory as a `RunConfig`
(propagating the first failure), and collect `(run_id, config)` pairs. -/
def loadEntries (fs : FS) : List RunsEntry → Except RunError (List (String × RunConfig))
  | [] => .ok []
  | .file _ :: rest => loadEntries fs rest
  | .dir run_id _ :: rest =>
    match RunConfig.load run_id fs with
    | .error e => .error e
    | .ok config =>
      match loadEntries fs rest with
      | .error e => .error e
      | .ok l => .ok ((run_id, config) :: l)

/-- The comparator of `cmd_list`'s `sort_by`: `a` precedes `b` when `b`'s
`start_time` is at most `a`'s (descending by `start_time`). -/
def runsBefore (a b : String × RunConfig) : Prop :=
  b.2.start_time ≤ a.2.start_time

instance : DecidableRel runsBefore :=
  fun a b => inferInstanceAs (Decidable (b.2.start_time ≤ a.2.start_time))

instance : IsTotal (String × RunConfig) runsBefore :=
  ⟨fun a b => Nat.le_total b.2.start_time a.2.start_time⟩

instance : IsTrans (String × RunConfig) runsBefore :=
  ⟨fun _a _b _c hab hbc => Nat.le_trans hbc hab⟩

/-- `cmd_list`: `init_check`, `read_dir(.runs)` (an I/O error when `.runs`
is missing), the collection loop, then the stable `sort_by` on the
descending `start_time` comparator.  A stable sort's output is uniquely
determined by the comparator and the input order, so Rust's stable
`sort_by` is embedded as stable insertion sort. -/
def cmd_list (fs : FS) : Except RunError (List (String × RunConfig)) :=
  if !fs.initOk then .error (.ioError "init_check failed")
  else if !fs.runsDirExists then .error (.ioError "read_dir .runs failed")
  else
    match loadEntries fs fs.entries with
    | .error e => .error e
    | .ok runs => .ok (runs.insertionSort runsBefore)

/-! Concrete fixtures used by the witnesses. -/

/-- A concrete configuration with a given start time. -/
def cfgOf (t : Nat) : RunConfig :=
  { start_time := t, app_hash := "hash0", blocks := [("b1", Json.num 1)] }

/-- A concrete run over `cfgOf 100` with no traces. -/
def runA : Run := { run_id := "run1", config := cfgOf 100, traces := [] }

/-- An initialized workspace whose `.runs` directory is empty. -/
def fsEmpty : FS := { initOk := true, runsDirExists := true, entries := [] }

/-- The filesystem after storing `runA` into the empty workspace. -/
def fsA : FS := (runA.store fsEmpty).1

/-! Serialization round-trip. -/

/-- Deserializing a serialized `RunConfig` restores it exactly. -/
theorem decode_encode (c : RunConfig) :
    decodeRunConfig (encodeRunConfig c) = some c := rfl

/-- C1: storing a `Run` built from any `RunConfig` and then loading by the
resulting `run_id` yields a `RunConfig` equal to the original: `store()`
succeeds on a fresh `run_id` and `RunConfig::load` on the stored state
returns exactly the stored config. -/
theorem store_load_roundtrip (r : Run) (fs : FS)
    (hinit : fs.initOk = true) (hruns : fs.runsDirExists = true)
    (hfresh : lookupEntry fs r.run_id = none) :
    (r.store fs).2 = .ok () ∧
      RunConfig.load r.run_id (r.store fs).1 = .ok r.config := by
  unfold Run.store
  rw [hinit, hruns, hfresh]
  simp only [Option.isSome_none, Bool.not_true, Bool.false_eq_true, if_false, ite_false,
    Bool.not_false, ite_true]
  refine ⟨trivial, ?_⟩
  unfold RunConfig.load lookupEntry
  simp only [hinit, hruns, Bool.not_true, Bool.false_eq_true, if_false, ite_false]
  rw [List.find?_append]
  unfold lookupEntry at hfresh
  rw [hfresh]
  simp [RunsEntry.name, storedRunDir, decode_encode]

/-- Witness for C1 at the concrete run `runA` over the empty workspace. -/
theorem store_load_roundtrip_witness :
    lookupEntry fsEmpty runA.run_id = none ∧
    ((runA.store fsEmpty).2 = .ok () ∧
      RunConfig.load runA.run_id (runA.store fsEmpty).1 = .ok runA.config) :=
  ⟨rfl, store_load_roundtrip runA fsEmpty rfl rfl rfl⟩

/-- C2 (amended): calling `store()` for a `run_id` whose directory already
exists fails with the `assert!(!run_dir.exists())` panic — a hard abort,
not a recoverable AlreadyExists error value — and returns before writing
anything, leaving the filesystem (hence the previously stored
`config.json` and block subdirectories) exactly unchanged. -/
theorem store_duplicate_fails_unchanged (r : Run) (fs : FS)
    (hinit : fs.initOk = true) (hruns : fs.runsDirExists = true)
    (hdup : (lookupEntry fs r.run_id).isSome = true) :
    r.store fs = (fs, .error (.assertFailed "!run_dir.exists()")) := by
  unfold Run.store
  rw [hinit, hruns, hdup]
  simp

/-- Witness for C2 (amended): a second store of `runA` after it is
already on disk fails by assertion and leaves the state untouched. -/
theorem store_duplicate_fails_unchanged_witness :
    (lookupEntry fsA runA.run_id).isSome = true ∧
    runA.store fsA = (fsA, .error (.assertFailed "!run_dir.exists()")) :=
  ⟨rfl, store_duplicate_fails_unchanged runA fsA rfl rfl rfl⟩

/-- Counterexample to C2 as stated: at the concrete duplicate store, the
failure outcome is the assertion panic, not an AlreadyExists error. -/
theorem store_duplicate_not_alreadyExists :
    (runA.store fsA).2 = .error (.assertFailed "!run_dir.exists()") ∧
    (runA.store fsA).2 ≠ .error .alreadyExists := by
  refine ⟨rfl, fun h => ?_⟩
  rw [show (runA.store fsA).2 = .error (.assertFailed "!run_dir.exists()") from rfl] at h
  exact RunError.noConfusion (Except.error.inj h)

/-- C5: loading a `run_id` with no corresponding entry under `.runs`
fails with the not-found error naming that `run_id` (and hence never
returns any `RunConfig` value at all). -/
theorem load_missing_notFound (run_id : String) (fs : FS)
    (hinit : fs.initOk = true) (hruns : fs.runsDirExists = true)
    (habsent : lookupEntry fs run_id = none) :
    RunConfig.load run_id fs = .error (.notFound run_id) := by
  unfold RunConfig.load
  rw [hinit, hruns, habsent]
  simp

/-- Witness for C5: loading a nonexistent identifier on the populated
concrete filesystem fails with the not-found error naming it. -/
theorem load_missing_notFound_witness :
    lookupEntry fsA "nonexistent-id" = none ∧
    RunConfig.load "nonexistent-id" fsA = .error (.notFound "nonexistent-id") :=
  ⟨rfl, load_missing_notFound "nonexistent-id" fsA rfl rfl rfl⟩

/-- C7: whenever `Run::load` succeeds, the returned `Run` has empty
`traces` (no trace files are rehydrated), and its config is exactly what
`RunConfig::load` returns. -/
theorem run_load_traces_empty (run_id : String) (fs : FS) (r : Run)
    (h : Run.load run_id fs = .ok r) :
    r.traces = [] ∧ RunConfig.load run_id fs = .ok r.config := by
  unfold Run.load at h
  cases hm : RunConfig.load run_id fs with
  | error e => rw [hm] at h; cases h
  | ok c =>
    rw [hm] at h
    injection h with h2
    subst h2
    exact ⟨rfl, rfl⟩

/-- Witness for C7: loading the stored concrete run returns empty traces. -/
theorem run_load_traces_empty_witness :
    Run.load "run1" fsA = .ok { run_id := "run1", config := cfgOf 100, traces := [] } ∧
    (Run.mk "run1" (cfgOf 100) []).traces = [] ∧
    RunConfig.load "run1" fsA = .ok (Run.mk "run1" (cfgOf 100) []).config :=
  ⟨rfl, run_load_traces_empty "run1" fsA _ rfl⟩

/-- C10: whenever `Run::load` succeeds, the returned `Run`'s `run_id`
field is the caller's argument. -/
theorem run_load_run_id_eq (run_id : String) (fs : FS) (r : Run)
    (h : Run.load run_id fs = .ok r) : r.run_id = run_id := by
  unfold Run.load at h
  cases hm : RunConfig.load run_id fs with
  | error e => rw [hm] at h; cases h
  | ok c =>
    rw [hm] at h
    injection h with h2
    subst h2
    rfl

/-- Witness for C10: the concrete load returns a run whose `run_id` is
the argument. -/
theorem run_load_run_id_eq_witness :
    Run.load "run1" fsA = .ok { run_id := "run1", config := cfgOf 100, traces := [] } ∧
    (Run.mk "run1" (cfgOf 100) []).run_id = "run1" :=
  ⟨rfl, run_load_run_id_eq "run1" fsA _ rfl⟩

/-- A stored run whose single on-disk block subdirectory is
`0-code_blockA`; no subdirectory of it matches the name `no_such_block`. -/
def fsInspect : FS :=
  { initOk := true
    runsDirExists := true
    entries := [.dir "run1"
      { configJson := encodeRunConfig (cfgOf 100)
        blockDirs := [("0-code_blockA", [Json.arr []])] }] }

/-- C3 (code bug): `cmd_inspect` on a stored run and a block name that
matches no subdirectory of the run returns `Ok(())` — it neither locates
and returns the block's per-input executions nor fails with a
"block not found in run" error, because the source's `cmd_inspect` only
loads the `Run` and ignores its `block` argument entirely. -/
theorem cmd_inspect_ignores_block :
    cmd_inspect "run1" "no_such_block" fsInspect = .ok () ∧
    cmd_inspect "run1" "blockA" fsInspect = .ok () := ⟨rfl, rfl⟩

/-- C4: when every run config loads successfully, `cmd_list` returns
exactly the stable sort of the collected `(run_id, RunConfig)` pairs by
descending `start_time`: a permutation of the loaded pairs that is
pairwise ordered most-recent-first. -/
theorem cmd_list_sorted (fs : FS) (l : List (String × RunConfig))
    (hinit : fs.initOk = true) (hruns : fs.runsDirExists = true)
    (hload : loadEntries fs fs.entries = .ok l) :
    cmd_list fs = .ok (l.insertionSort runsBefore) ∧
    (l.insertionSort runsBefore).Perm l ∧
    List.Sorted runsBefore (l.insertionSort runsBefore) := by
  refine ⟨?_, List.perm_insertionSort runsBefore l, List.sorted_insertionSort runsBefore l⟩
  unfold cmd_list
  rw [hinit, hruns, hload]
  simp

/-- Three stored runs with start times 100, 300 and 200. -/
def fsList : FS :=
  { initOk := true
    runsDirExists := true
    entries := [.dir "r1" { configJson := encodeRunConfig (cfgOf 100), blockDirs := [] },
                .dir "r2" { configJson := encodeRunConfig (cfgOf 300), blockDirs := [] },
                .dir "r3" { configJson := encodeRunConfig (cfgOf 200), blockDirs := [] }] }

/-- The pairs collected from `fsList` in directory order. -/
def listPairs : List (String × RunConfig) :=
  [("r1", cfgOf 100), ("r2", cfgOf 300), ("r3", cfgOf 200)]

/-- Witness for C4: runs with start times [100, 300, 200] are listed in
the order [300, 200, 100]. -/
theorem cmd_list_sorted_witness :
    loadEntries fsList fsList.entries = .ok listPairs ∧
    cmd_list fsList = .ok [("r2", cfgOf 300), ("r3", cfgOf 200), ("r1", cfgOf 100)] :=
  ⟨rfl, ((cmd_list_sorted fsList listPairs rfl rfl rfl).1).trans rfl⟩

/-- The collection loop of `cmd_list` propagates a config-load failure:
if some directory entry's config fails to load, the whole traversal
returns an error. -/
theorem loadEntries_error_of_mem (fs : FS) (nm : String) (d : RunDir) (e : RunError)
    (hbad : RunConfig.load nm fs = .error e) :
    ∀ l : List RunsEntry, RunsEntry.dir nm d ∈ l →
      ∃ f, loadEntries fs l = .error f := by
  intro l hl
  induction l with
  | nil => cases hl
  | cons hd tl ih =>
    rcases List.mem_cons.mp hl with hEq | htl
    · rw [← hEq]
      exact ⟨e, by simp [loadEntries, hbad]⟩
    · obtain ⟨f, hf⟩ := ih htl
      cases hd with
      | file s => exact ⟨f, by simpa [loadEntries] using hf⟩
      | dir m dm =>
        cases hm : RunConfig.load m fs with
        | error g => exact ⟨g, by simp [loadEntries, hm]⟩
        | ok c => exact ⟨f, by simp [loadEntries, hm, hf]⟩

/-- C8: if any directory under `.runs` holds a config that fails to
load (e.g. malformed JSON), `cmd_list` aborts with an error instead of
skipping that run and returning the rest. -/
theorem cmd_list_propagates_failure (fs : FS) (nm : String) (d : RunDir) (e : RunError)
    (hinit : fs.initOk = true) (hruns : fs.runsDirExists = true)
    (hmem : RunsEntry.dir nm d ∈ fs.entries)
    (hbad : RunConfig.load nm fs = .error e) :
    ∃ f, cmd_list fs = .error f := by
  obtain ⟨f, hf⟩ := loadEntries_error_of_mem fs nm d e hbad fs.entries hmem
  exact ⟨f, by simp [cmd_list, hinit, hruns, hf]⟩

/-- A `.runs` directory holding one well-formed run and one run whose
`config.json` payload is not a serialized `RunConfig`. -/
def fsBad : FS :=
  { initOk := true
    runsDirExists := true
    entries := [.dir "good" { configJson := encodeRunConfig (cfgOf 50), blockDirs := [] },
                .dir "bad" { configJson := Json.null, blockDirs := [] }] }

/-- Witness for C8: the listing over `fsBad` fails outright. -/
theorem cmd_list_propagates_failure_witness :
    RunsEntry.dir "bad" { configJson := Json.null, blockDirs := [] } ∈ fsBad.entries ∧
    RunConfig.load "bad" fsBad = .error .malformedConfig ∧
    ∃ f, cmd_list fsBad = .error f :=
  ⟨List.Mem.tail _ (List.Mem.head _), rfl,
    cmd_list_propagates_failure fsBad "bad" { configJson := Json.null, blockDirs := [] }
      .malformedConfig rfl rfl (List.Mem.tail _ (List.Mem.head _)) rfl⟩

/-- The same `.runs` directory with the non-directory entries removed. -/
def FS.dirsOnly (fs : FS) : FS :=
  { fs with entries := fs.entries.filter RunsEntry.isDir }

/-- With pairwise-distinct entry names (true of any real directory),
name lookup finds each member entry itself. -/
theorem find?_name_of_mem (l : List RunsEntry) (e : RunsEntry)
    (hnd : (l.map RunsEntry.name).Nodup) (hmem : e ∈ l) :
    l.find? (fun x => x.name == e.name) = some e := by
  induction l with
  | nil => cases hmem
  | cons hd tl ih =>
    rw [List.map_cons, List.nodup_cons] at hnd
    rcases List.mem_cons.mp hmem with hEq | htl
    · rw [← hEq]
      exact List.find?_cons_of_pos _ (by simp)
    · have hne : ¬(hd.name == e.name) = true := by
        simp only [beq_iff_eq]
        intro hEq
        exact hnd.1 (hEq ▸ List.mem_map_of_mem RunsEntry.name htl)
      rw [List.find?_cons_of_neg (p := fun x => x.name == e.name) (a := hd) tl hne]
      exact ih hnd.2 htl

/-- Removing the non-directory entries does not change how a stored
run's config loads, when entry names are pairwise distinct. -/
theorem load_dirsOnly (fs : FS) (hnd : (fs.entries.map RunsEntry.name).Nodup)
    (nm : String) (d : RunDir) (hmem : RunsEntry.dir nm d ∈ fs.entries) :
    RunConfig.load nm fs.dirsOnly = RunConfig.load nm fs := by
  have h1 : lookupEntry fs nm = some (.dir nm d) :=
    find?_name_of_mem fs.entries (.dir nm d) hnd hmem
  have hsub : (fs.dirsOnly.entries.map RunsEntry.name).Sublist (fs.entries.map RunsEntry.name) :=
    (List.filter_sublist fs.entries).map RunsEntry.name
  have h2 : lookupEntry fs.dirsOnly nm = some (.dir nm d) :=
    find?_name_of_mem fs.dirsOnly.entries (.dir nm d) (hnd.sublist hsub)
      (List.mem_filter.mpr ⟨hmem, rfl⟩)
  unfold RunConfig.load
  rw [show fs.dirsOnly.initOk = fs.initOk from rfl,
    show fs.dirsOnly.runsDirExists = fs.runsDirExists from rfl, h1, h2]

/-- The collection loop of `cmd_list` computes the same pairs whether or
not the non-directory entries are present: the loop itself skips them and
attempts no config load for them. -/
theorem loadEntries_dirsOnly (fs : FS) (hnd : (fs.entries.map RunsEntry.name).Nodup) :
    ∀ l : List RunsEntry, (∀ x ∈ l, x ∈ fs.entries) →
      loadEntries fs.dirsOnly (l.filter RunsEntry.isDir) = loadEntries fs l := by
  intro l
  induction l with
  | nil => intro _; rfl
  | cons hd tl ih =>
    intro hsub
    have htl : ∀ x ∈ tl, x ∈ fs.entries := fun x hx => hsub x (List.mem_cons_of_mem hd hx)
    cases hd with
    | file s =>
      rw [show (RunsEntry.file s :: tl).filter RunsEntry.isDir = tl.filter RunsEntry.isDir
        from rfl]
      rw [show loadEntries fs (RunsEntry.file s :: tl) = loadEntries fs tl from rfl]
      exact ih htl
    | dir nm d =>
      have hload := load_dirsOnly fs hnd nm d (hsub _ (List.mem_cons_self _ _))
      rw [show (RunsEntry.dir nm d :: tl).filter RunsEntry.isDir =
        RunsEntry.dir nm d :: tl.filter RunsEntry.isDir from rfl]
      simp only [loadEntries]
      rw [hload, ih htl]

/-- C9: entries directly under `.runs` that are not directories are
ignored by the listing: with them removed, `cmd_list` produces the
identical outcome, so no config load is attempted for them and they
never appear in the returned sequence. -/
theorem cmd_list_ignores_non_dirs (fs : FS)
    (hnd : (fs.entries.map RunsEntry.name).Nodup) :
    cmd_list fs.dirsOnly = cmd_list fs := by
  unfold cmd_list
  rw [show fs.dirsOnly.initOk = fs.initOk from rfl,
    show fs.dirsOnly.runsDirExists = fs.runsDirExists from rfl,
    show fs.dirsOnly.entries = fs.entries.filter RunsEntry.isDir from rfl,
    loadEntries_dirsOnly fs hnd fs.entries (fun _ h => h)]

/-- A `.runs` directory holding one run directory and one stray file. -/
def fsMix : FS :=
  { initOk := true
    runsDirExists := true
    entries := [.dir "r1" { configJson := encodeRunConfig (cfgOf 100), blockDirs := [] },
                .file "stray"] }

/-- Witness for C9: the stray file changes nothing about the listing,
which returns only the run directory's pair. -/
theorem cmd_list_ignores_non_dirs_witness :
    (fsMix.entries.map RunsEntry.name).Nodup ∧
    cmd_list fsMix.dirsOnly = cmd_list fsMix ∧
    cmd_list fsMix = .ok [("r1", cfgOf 100)] :=
  ⟨by decide, cmd_list_ignores_non_dirs fsMix (by decide), rfl⟩

/-! Decimal rendering facts about `Nat.repr`, used to show that distinct
block indices yield distinct subdirectory names. -/

/-- The numeric value of a decimal digit character. -/
def charDigitVal (c : Char) : Nat := c.toNat - 48

/-- The number denoted by a list of decimal digit characters. -/
def digitsVal : List Char → Nat
  | [] => 0
  | c :: cs => charDigitVal c * 10 ^ cs.length + digitsVal cs

theorem charDigitVal_digitChar {m : Nat} (h : m < 10) :
    charDigitVal (Nat.digitChar m) = m := by
  interval_cases m <;> rfl

theorem digitChar_ne_dash {m : Nat} (h : m < 10) : Nat.digitChar m ≠ '-' := by
  interval_cases m <;> decide

/-- `Nat.toDigitsCore` prepends the decimal rendering of `n` to `ds`:
reading its output back as a number prepends `n` at the right power. -/
theorem digitsVal_toDigitsCore :
    ∀ (f n : Nat), n < 10 ^ f → ∀ ds : List Char,
      digitsVal (Nat.toDigitsCore 10 f n ds) = n * 10 ^ ds.length + digitsVal ds := by
  intro f
  induction f with
  | zero =>
    intro n h ds
    rw [Nat.lt_one_iff.mp h]
    simp [Nat.toDigitsCore]
  | succ f ih =>
    intro n h ds
    simp only [Nat.toDigitsCore]
    by_cases h0 : n / 10 = 0
    · rw [if_pos h0]
      have hn : n < 10 := (Nat.div_eq_zero_iff (by decide)).mp h0
      show charDigitVal (Nat.digitChar (n % 10)) * 10 ^ ds.length + digitsVal ds = _
      rw [charDigitVal_digitChar (Nat.mod_lt n (by decide)), Nat.mod_eq_of_lt hn]
    · rw [if_neg h0]
      have hlt : n / 10 < 10 ^ f := by
        rw [Nat.div_lt_iff_lt_mul (by decide)]
        rw [Nat.pow_succ] at h
        exact h
      rw [ih (n / 10) hlt (Nat.digitChar (n % 10) :: ds)]
      show _ = n * 10 ^ ds.length + digitsVal ds
      have hdv : digitsVal (Nat.digitChar (n % 10) :: ds) =
          n % 10 * 10 ^ ds.length + digitsVal ds := by
        show charDigitVal (Nat.digitChar (n % 10)) * 10 ^ ds.length + digitsVal ds = _
        rw [charDigitVal_digitChar (Nat.mod_lt n (by decide))]
      rw [hdv, List.length_cons, Nat.pow_succ]
      conv_rhs => rw [← Nat.div_add_mod n 10]
      ring

/-- Reading the decimal rendering of `n` back as a number gives `n`. -/
theorem digitsVal_toDigits (n : Nat) : digitsVal (Nat.toDigits 10 n) = n := by
  unfold Nat.toDigits
  have hb : (1 : Nat) < 10 := by decide
  have hlt : n < 10 ^ (n + 1) :=
    Nat.lt_of_lt_of_le (Nat.lt_pow_self hb n)
      (Nat.pow_le_pow_right (by decide) (Nat.le_succ n))
  rw [digitsVal_toDigitsCore (n + 1) n hlt []]
  simp [digitsVal]

/-- The decimal rendering is injective. -/
theorem toDigits_ten_inj {m n : Nat} (h : Nat.toDigits 10 m = Nat.toDigits 10 n) :
    m = n := by
  rw [← digitsVal_toDigits m, ← digitsVal_toDigits n, h]

/-- No dash occurs among decimal digit characters produced by
`Nat.toDigitsCore`. -/
theorem dash_not_mem_toDigitsCore :
    ∀ (f n : Nat) (ds : List Char), '-' ∉ ds → '-' ∉ Nat.toDigitsCore 10 f n ds := by
  intro f
  induction f with
  | zero =>
    intro n ds h
    simpa [Nat.toDigitsCore] using h
  | succ f ih =>
    intro n ds h
    simp only [Nat.toDigitsCore]
    have hd : Nat.digitChar (n % 10) ≠ '-' := digitChar_ne_dash (Nat.mod_lt n (by decide))
    by_cases h0 : n / 10 = 0
    · rw [if_pos h0]
      intro hmem
      rcases List.mem_cons.mp hmem with hEq | hds
      · exact hd hEq.symm
      · exact h hds
    · rw [if_neg h0]
      refine ih (n / 10) (Nat.digitChar (n % 10) :: ds) ?_
      intro hmem
      rcases List.mem_cons.mp hmem with hEq | hds
      · exact hd hEq.symm
      · exact h hds

theorem dash_not_mem_toDigits (n : Nat) : '-' ∉ Nat.toDigits 10 n :=
  dash_not_mem_toDigitsCore (n + 1) n [] (by simp)

/-- Two dash-free prefixes followed by a dash coincide whenever the full
character lists coincide. -/
theorem eq_of_append_dash :
    ∀ (l1 l2 r1 r2 : List Char), '-' ∉ l1 → '-' ∉ l2 →
      l1 ++ '-' :: r1 = l2 ++ '-' :: r2 → l1 = l2 := by
  intro l1
  induction l1 with
  | nil =>
    intro l2 r1 r2 _ h2 h
    cases l2 with
    | nil => rfl
    | cons c cs =>
      simp only [List.nil_append, List.cons_append, List.cons.injEq] at h
      exact absurd (by rw [← h.1]; exact List.mem_cons_self _ _) h2
  | cons a as ih =>
    intro l2 r1 r2 h1 h2 h
    cases l2 with
    | nil =>
      simp only [List.nil_append, List.cons_append, List.cons.injEq] at h
      exact absurd (by rw [h.1]; exact List.mem_cons_self _ _) h1
    | cons b bs =>
      simp only [List.cons_append, List.cons.injEq] at h
      have htl : as = bs :=
        ih bs r1 r2 (fun hm => h1 (List.mem_cons_of_mem a hm))
          (fun hm => h2 (List.mem_cons_of_mem b hm)) h.2
      rw [h.1, htl]

/-- The character data of a block subdirectory name: the decimal index,
a dash, then type and name joined by an underscore. -/
theorem blockDirName_data (i : Nat) (t : BlockType) (n : String) :
    (blockDirName i t n).data =
      Nat.toDigits 10 i ++ '-' :: (t.render.data ++ '_' :: n.data) := by
  show ((((Nat.repr i ++ "-") ++ t.render) ++ "_") ++ n).data = _
  simp only [String.data_append, List.append_assoc]
  rfl

/-- Distinct block indices give distinct subdirectory names, whatever the
block types and names are: the name determines its decimal index prefix. -/
theorem blockDirName_inj (i j : Nat) (t u : BlockType) (n m : String)
    (h : blockDirName i t n = blockDirName j u m) : i = j := by
  have hdata := congrArg String.data h
  rw [blockDirName_data, blockDirName_data] at hdata
  exact toDigits_ten_inj
    (eq_of_append_dash _ _ _ _ (dash_not_mem_toDigits i) (dash_not_mem_toDigits j) hdata)

/-- C6: a successful `store()` writes the run directory whose block
subdirectories are named from `(block_index, block_type, block_name)`
with the decimal index as the leading component, and those names are
pairwise distinct — in particular two trace entries with the same block
name at different pipeline positions never collide. -/
theorem store_block_dir_names (r : Run) (fs : FS)
    (hinit : fs.initOk = true) (hruns : fs.runsDirExists = true)
    (hfresh : lookupEntry fs r.run_id = none) :
    (r.store fs).2 = .ok () ∧
    lookupEntry (r.store fs).1 r.run_id = some (.dir r.run_id (storedRunDir r)) ∧
    (storedRunDir r).blockDirs.map Prod.fst =
      r.traces.enum.map (fun p => blockDirName p.1 p.2.1.1 p.2.1.2) ∧
    ((storedRunDir r).blockDirs.map Prod.fst).Nodup := by
  refine ⟨?_, ?_, ?_, ?_⟩
  · unfold Run.store
    rw [hinit, hruns, hfresh]
    simp
  · unfold Run.store
    rw [hinit, hruns, hfresh]
    simp only [Option.isSome_none, Bool.not_true, Bool.false_eq_true, if_false, ite_false,
      Bool.not_false, ite_true]
    unfold lookupEntry at hfresh ⊢
    rw [List.find?_append, hfresh]
    simp [RunsEntry.name]
  · simp [storedRunDir, List.map_map]
  · have hmap : (storedRunDir r).blockDirs.map Prod.fst =
        r.traces.enum.map (fun p => blockDirName p.1 p.2.1.1 p.2.1.2) := by
      simp [storedRunDir, List.map_map]
    rw [hmap]
    have henum : (r.traces.enum).Pairwise (fun p q => p.1 < q.1) := by
      have h1 : List.Pairwise (· < ·) (r.traces.enum.map Prod.fst) := by
        rw [List.enum_map_fst]
        exact List.pairwise_lt_range _
      exact List.pairwise_map.mp h1
    rw [List.Nodup, List.pairwise_map]
    refine henum.imp ?_
    intro p q hlt hEq
    exact Nat.ne_of_lt hlt (blockDirName_inj _ _ _ _ _ _ hEq)

/-- A run whose pipeline holds two identically named blocks at positions
0 and 1. -/
def runDup : Run :=
  { run_id := "run2"
    config := cfgOf 100
    traces := [((⟨"code"⟩, "dup"), []), ((⟨"code"⟩, "dup"), [])] }

/-- Witness for C6: the duplicate-named blocks are stored under the two
distinct subdirectories `0-code_dup` and `1-code_dup`. -/
theorem store_block_dir_names_witness :
    lookupEntry fsEmpty runDup.run_id = none ∧
    (storedRunDir runDup).blockDirs.map Prod.fst = ["0-code_dup", "1-code_dup"] ∧
    ((storedRunDir runDup).blockDirs.map Prod.fst).Nodup :=
  ⟨rfl, ((store_block_dir_names runDup fsEmpty rfl rfl rfl).2.2.1).trans rfl,
    (store_block_dir_names runDup fsEmpty rfl rfl rfl).2.2.2⟩

end Dust
